import Mathlib

/-!
Verification of the markdown-with-mermaid-to-html-pdf exporter
(`src/exporter.js`).  The JavaScript source is shallowly embedded:
strings become `String`/`List Char`, the asynchronous asset loads and
browser interactions become explicit environment records, and fallible
operations return `Except`.
-/

set_option autoImplicit false

namespace MdMermaid

/-! ### JavaScript string primitives used by the source -/

/-- Characters matched by the JavaScript regular-expression class of
whitespace (the set used by `String.prototype.trim` and the whitespace
split in the fence rule). -/
def jsWhitespaceChars : List Char :=
  [' ', '\t', '\n', '\x0b', '\x0c', '\r', '\u00A0', '\u1680',
   '\u2000', '\u2001', '\u2002', '\u2003', '\u2004', '\u2005',
   '\u2006', '\u2007', '\u2008', '\u2009', '\u200A', '\u2028',
   '\u2029', '\u202F', '\u205F', '\u3000', '\uFEFF']

def jsIsWs (c : Char) : Bool :=
  jsWhitespaceChars.contains c

/-- Embeds `s.trim()` (JavaScript) at the character-list level. -/
def jsTrimL (cs : List Char) : List Char :=
  ((cs.dropWhile jsIsWs).reverse.dropWhile jsIsWs).reverse

/-- Embeds `s.trim()` on `String`. -/
def jsTrim (s : String) : String :=
  String.mk (jsTrimL s.data)

/-- Embeds `haystack.replaceAll(p, r)` for a single-character pattern
`p` (the only shape of pattern the source uses in `escapeHtml`). -/
def replaceChar (p : Char) (r : List Char) : List Char → List Char
  | [] => []
  | c :: cs =>
    if c = p then r ++ replaceChar p r cs else c :: replaceChar p r cs

/-- Embeds `escapeHtml` from `src/exporter.js` lines 11-18: the five
`replaceAll` calls applied in source order (amp first). -/
def escapeHtml (value : String) : String :=
  String.mk
    (replaceChar '\x27' "&#39;".data
      (replaceChar '"' "&quot;".data
        (replaceChar '>' "&gt;".data
          (replaceChar '<' "&lt;".data
            (replaceChar '&' "&amp;".data value.data)))))

/-- Single-character view of the escaping performed by `escapeHtml`:
what one source character contributes to the escaped output. -/
def escChar (c : Char) : List Char :=
  if c = '&' then "&amp;".data
  else if c = '<' then "&lt;".data
  else if c = '>' then "&gt;".data
  else if c = '"' then "&quot;".data
  else if c = '\x27' then "&#39;".data
  else [c]

/-- Decoder replacing the five entities emitted by `escapeHtml` back to
their characters (greedy single pass; the five entities are mutually
non-overlapping since they differ at their second character). -/
def unescapeL : List Char → List Char
  | '&' :: 'a' :: 'm' :: 'p' :: ';' :: rest => '&' :: unescapeL rest
  | '&' :: 'l' :: 't' :: ';' :: rest => '<' :: unescapeL rest
  | '&' :: 'g' :: 't' :: ';' :: rest => '>' :: unescapeL rest
  | '&' :: 'q' :: 'u' :: 'o' :: 't' :: ';' :: rest => '"' :: unescapeL rest
  | '&' :: '#' :: '3' :: '9' :: ';' :: rest => '\x27' :: unescapeL rest
  | c :: rest => c :: unescapeL rest
  | [] => []

def unescapeHtml (s : String) : String :=
  String.mk (unescapeL s.data)

/-! ### Markdown rendering model

`buildHtml` feeds the Markdown text through markdown-it with one
overridden renderer rule (the fence rule, `src/exporter.js` lines
39-46).  markdown-it itself is an external library; its block
tokenizer is modelled here restricted to the constructs exercised by
the verified inputs: ATX headings (closing-hash trimming omitted),
backtick/tilde fenced code blocks with up-to-three-space indentation,
paragraphs and blank lines.  Fence tokens carry the info string
exactly as the remainder of the opening line, and their content is the
enclosed lines each terminated by a newline, as markdown-it produces
them. -/

/-- Embeds the language lookup of the overridden fence rule:
`(token.info || "").trim().split(/\s+/g)[0]`. -/
def fenceLang (info : String) : String :=
  String.mk ((jsTrimL info.data).takeWhile (fun c => !(jsIsWs c)))

/-- Embeds markdown-it `md.utils.escapeHtml`, used by the fence rule on
the diagram block content: it replaces the four characters matched by
its escape regular expression (amp, lt, gt, quot). -/
def mdEscChar (c : Char) : List Char :=
  if c = '&' then "&amp;".data
  else if c = '<' then "&lt;".data
  else if c = '>' then "&gt;".data
  else if c = '"' then "&quot;".data
  else [c]

def mdEscapeHtml (s : String) : String :=
  String.mk (s.data.flatMap mdEscChar)

/-- A block-level markdown-it token (restricted model). -/
inductive Block where
  | heading (level : Nat) (text : String)
  | fence (info : String) (content : String)
  | paragraph (text : String)
deriving DecidableEq

def leadingSpaces (l : String) : Nat :=
  (l.data.takeWhile (fun c => c = ' ')).length

def isBlankLine (l : String) : Bool :=
  l.data.all (fun c => c = ' ' || c = '\t')

/-- Opening fence data: marker character, marker run length, indent of
the opening line, and the raw info string (rest of the line). -/
structure FenceOpen where
  marker : Char
  len : Nat
  indent : Nat
  info : String
deriving DecidableEq

def fenceOpen? (l : String) : Option FenceOpen :=
  let ind := leadingSpaces l
  if ind ≥ 4 then none
  else
    match l.data.drop ind with
    | [] => none
    | m :: rest =>
      if m = '\x60' ∨ m = '~' then
        let run := (m :: rest).takeWhile (fun c => c = m)
        if run.length ≥ 3 then
          let infoCs := (m :: rest).drop run.length
          if m = '\x60' ∧ infoCs.contains '\x60' then none
          else some ⟨m, run.length, ind, String.mk infoCs⟩
        else none
      else none

def isFenceClose (fo : FenceOpen) (l : String) : Bool :=
  let ind := leadingSpaces l
  let rest := l.data.drop ind
  let run := rest.takeWhile (fun c => c = fo.marker)
  decide (ind ≤ 3) && decide (fo.len ≤ run.length) && run.length != 0 &&
    (rest.drop run.length).all (fun c => c = ' ' || c = '\t')

/-- Drops up to `n` leading space characters (content lines of an
indented fence lose the opening fence's indentation). -/
def dropUpTo : Nat → List Char → List Char
  | 0, cs => cs
  | _ + 1, [] => []
  | n + 1, c :: cs => if c = ' ' then dropUpTo n cs else c :: cs

def stripIndent (n : Nat) (l : String) : String :=
  String.mk (dropUpTo n l.data)

def atxHeading? (l : String) : Option (Nat × String) :=
  let ind := leadingSpaces l
  if ind ≥ 4 then none
  else
    let rest := l.data.drop ind
    let hs := rest.takeWhile (fun c => c = '#')
    if hs.length = 0 ∨ hs.length > 6 then none
    else
      match rest.drop hs.length with
      | [] => some (hs.length, "")
      | c :: cs =>
        if c = ' ' ∨ c = '\t' then some (hs.length, String.mk (jsTrimL (c :: cs)))
        else none

/-- Scanner state of the line-by-line block parser: at top level,
inside an open fence (content lines collected in reverse), or inside a
paragraph (lines collected in reverse). -/
inductive PState where
  | top
  | inFence (fo : FenceOpen) (content : List String)
  | inPara (lines : List String)

/-- Content of a closed fence token: the collected lines, each
terminated by a newline, as markdown-it stores it. -/
def fenceContent (content : List String) : String :=
  String.join (content.reverse.map (fun s => s ++ "\n"))

def paraText (lines : List String) : String :=
  jsTrim (String.intercalate "\n" lines.reverse)

/-- One scanner step: the blocks completed by this line and the next
state. -/
def parseStep : PState → String → List Block × PState
  | PState.top, l =>
    if isBlankLine l then ([], PState.top)
    else
      match fenceOpen? l with
      | some fo => ([], PState.inFence fo [])
      | none =>
        match atxHeading? l with
        | some hd => ([Block.heading hd.1 hd.2], PState.top)
        | none => ([], PState.inPara [l])
  | PState.inFence fo content, l =>
    if isFenceClose fo l then
      ([Block.fence fo.info (fenceContent content)], PState.top)
    else
      ([], PState.inFence fo (stripIndent fo.indent l :: content))
  | PState.inPara lines, l =>
    if isBlankLine l then ([Block.paragraph (paraText lines)], PState.top)
    else
      match fenceOpen? l with
      | some fo => ([Block.paragraph (paraText lines)], PState.inFence fo [])
      | none =>
        match atxHeading? l with
        | some hd =>
          ([Block.paragraph (paraText lines), Block.heading hd.1 hd.2], PState.top)
        | none => ([], PState.inPara (l :: lines))

/-- Blocks still open at end of input (an unclosed fence runs to the
end of the document, as in markdown-it). -/
def flushState : PState → List Block
  | PState.top => []
  | PState.inFence fo content => [Block.fence fo.info (fenceContent content)]
  | PState.inPara lines => [Block.paragraph (paraText lines)]

def parseGo : PState → List String → List Block
  | st, [] => flushState st
  | st, l :: ls =>
    let p := parseStep st l
    p.1 ++ parseGo p.2 ls

def parseBlocks (lines : List String) : List Block :=
  parseGo PState.top lines

/-- Output of the overridden fence rule on a diagram block
(`src/exporter.js` line 43). -/
def mermaidPre (content : String) : String :=
  "<pre class=\"mermaid\">" ++ mdEscapeHtml content ++ "</pre>\n"

/-- Modelled from markdown-it: the default fence renderer the override
falls back to (no highlighter configured, no extra attributes). -/
def defaultFence (info content : String) : String :=
  if jsTrim info = "" then
    "<pre><code>" ++ mdEscapeHtml content ++ "</code></pre>\n"
  else
    "<pre><code class=\"language-" ++ mdEscapeHtml (fenceLang info) ++ "\">"
      ++ mdEscapeHtml content ++ "</code></pre>\n"

/-- Embeds the renderer with the fence override installed by
`buildHtml` (`src/exporter.js` lines 39-46): a fenced block whose info
string has first word `mermaid` becomes the diagram container, every
other fence goes to the default fence rule; headings and paragraphs
are rendered by markdown-it's stock rules (restricted model: inline
content rendered as escaped text). -/
def renderBlock : Block → String
  | Block.heading lvl text =>
    "<h" ++ toString lvl ++ ">" ++ mdEscapeHtml text ++ "</h" ++ toString lvl ++ ">\n"
  | Block.paragraph text => "<p>" ++ mdEscapeHtml text ++ "</p>\n"
  | Block.fence info content =>
    if fenceLang info = "mermaid" then mermaidPre content
    else defaultFence info content

def normalizeNewlines : List Char → List Char
  | [] => []
  | '\r' :: '\n' :: rest => '\n' :: normalizeNewlines rest
  | '\r' :: rest => '\n' :: normalizeNewlines rest
  | c :: rest => c :: normalizeNewlines rest

/-- Splits at every newline (`n + 1` lines for `n` newlines). -/
def splitLinesL : List Char → List (List Char)
  | [] => [[]]
  | '\n' :: rest => [] :: splitLinesL rest
  | c :: rest =>
    match splitLinesL rest with
    | [] => [[c]]
    | l :: ls => (c :: l) :: ls

def splitLines (s : String) : List String :=
  (splitLinesL (normalizeNewlines s.data)).map String.mk

/-- Embeds `md.render(markdown)` with the fence override: the rendered
body of the document. -/
def mdRender (markdown : String) : String :=
  String.join ((parseBlocks (splitLines markdown)).map renderBlock)

/-! ### Document assembly (`buildHtml`, `src/exporter.js` lines 20-158) -/

/-- Modelled from `JSON.stringify` applied to a string value: quote it
and escape the characters relevant to the configuration strings used
here. -/
def jsonEscChar (c : Char) : List Char :=
  if c = '"' then ['\\', '"']
  else if c = '\\' then ['\\', '\\']
  else if c = '\n' then ['\\', 'n']
  else if c = '\r' then ['\\', 'r']
  else if c = '\t' then ['\\', 't']
  else [c]

def jsonStringify (s : String) : String :=
  "\"" ++ String.mk (s.data.flatMap jsonEscChar) ++ "\""

/-- The `extraCss` template literal (`src/exporter.js` lines 73-89),
verbatim. -/
def extraCss : String :=
  "\n    body \x7b margin: 0; \x7d\n    .markdown-body \x7b\n      box-sizing: border-box;\n      min-width: 200px;\n      max-width: 980px;\n      margin: 0 auto;\n      padding: 24px;\n    \x7d\n\n    .mermaid svg \x7b max-width: 100%; height: auto; \x7d\n\n    @media print \x7b\n      .markdown-body \x7b max-width: none; padding: 0; \x7d\n      a \x7b color: inherit; text-decoration: none; \x7d\n    \x7d\n  "

/-- The `mermaidBootstrap` template literal (`src/exporter.js` lines
91-136), verbatim, with the two `JSON.stringify` interpolations. -/
def mermaidBootstrap (securityLevel mermaidTheme : String) : String :=
  "\n    (function () \x7b\n      function markDone(ok, err) \x7b\n        window.__MERMAID_DONE = true;\n        window.__MERMAID_OK = ok;\n        if (err) window.__MERMAID_ERROR = String(err);\n      \x7d\n\n      try \x7b\n        if (typeof mermaid === \"undefined\") \x7b\n          markDone(false, \"Mermaid failed to load\");\n          return;\n        \x7d\n\n        var init = \x7b\n          startOnLoad: false,\n          securityLevel: "
    ++ jsonStringify securityLevel
    ++ ",\n          theme: "
    ++ jsonStringify mermaidTheme
    ++ "\n        \x7d;\n\n        if (typeof mermaid.initialize === \"function\") \x7b\n          mermaid.initialize(init);\n        \x7d else if (mermaid.mermaidAPI && typeof mermaid.mermaidAPI.initialize === \"function\") \x7b\n          mermaid.mermaidAPI.initialize(init);\n        \x7d\n\n        var p;\n        if (typeof mermaid.run === \"function\") \x7b\n          p = mermaid.run(\x7b querySelector: \".mermaid\" \x7d);\n        \x7d else if (typeof mermaid.init === \"function\") \x7b\n          mermaid.init(undefined, document.querySelectorAll(\".mermaid\"));\n          p = Promise.resolve();\n        \x7d else \x7b\n          p = Promise.reject(new Error(\"Unknown Mermaid API (no run/init found)\"));\n        \x7d\n\n        Promise.resolve(p)\n          .then(function () \x7b markDone(true); \x7d)\n          .catch(function (e) \x7b console.error(e); markDone(false, e); \x7d);\n\n      \x7d catch (e) \x7b\n        console.error(e);\n        markDone(false, e);\n      \x7d\n    \x7d)();\n  "

/-- The final `html` template literal (`src/exporter.js` lines
138-155), verbatim. -/
def assembleHtml (baseHref title githubCss body mermaidJs bootstrap : String) : String :=
  "<!doctype html>\n<html>\n<head>\n  <meta charset=\"utf-8\" />\n  <meta name=\"viewport\" content=\"width=device-width,initial-scale=1\" />\n  <base href=\""
    ++ escapeHtml baseHref
    ++ "\" />\n  <title>"
    ++ escapeHtml title
    ++ "</title>\n  <style>"
    ++ githubCss
    ++ "\n"
    ++ extraCss
    ++ "</style>\n</head>\n<body>\n  <article class=\"markdown-body\">\n"
    ++ body
    ++ "\n  </article>\n\n  <script>"
    ++ mermaidJs
    ++ "</script>\n  <script>"
    ++ bootstrap
    ++ "</script>\n</body>\n</html>"

/-- Environment of `buildHtml`'s two asset loads.  `githubCss` is the
outcome of reading the optional stylesheet (`none` = resolve/read
threw); `mermaidJs` is the outcome of reading the diagram runtime
(`Except.error e` = resolve/read threw with message `e`). -/
structure Assets where
  githubCss : Option String
  mermaidJs : Except String String

/-- Embeds `buildHtml` (`src/exporter.js` lines 20-158).  The base href
computed from `inputPath` via `path`/`pathToFileURL` is passed in
already resolved (`baseHref`); the Markdown render, the two asset
loads, and the final template are modelled in source order.  A thrown
error is an `Except.error`. -/
def buildHtml (assets : Assets) (baseHref markdown title mermaidTheme securityLevel : String) :
    Except String String :=
  let body := mdRender markdown
  let githubCss := match assets.githubCss with
    | some s => s
    | none => ""
  match assets.mermaidJs with
  | Except.error e =>
    Except.error
      ("Could not find Mermaid runtime JS. Is \x27mermaid\x27 installed? Original error: " ++ e)
  | Except.ok mermaidJs =>
    Except.ok
      (assembleHtml baseHref title githubCss body mermaidJs
        (mermaidBootstrap securityLevel mermaidTheme))

/-! ### PDF printer (`renderPdfFromHtmlFile`, `src/exporter.js` lines 160-224)

The browser interactions are modelled by an environment record that
says how each awaited step would resolve; the function below replays
the source's control flow (including the `try`/`finally` that closes
the browser) over that environment. -/

/-- How each external step of `renderPdfFromHtmlFile` resolves. -/
structure PdfDeps where
  /-- `import("puppeteer")` succeeds. -/
  puppeteerOk : Bool
  /-- `puppeteer.launch(launchOpts)` succeeds. -/
  launchOk : Bool
  /-- `page.goto(...)` reaches network idle without throwing. -/
  gotoOk : Bool
  /-- `window.__MERMAID_DONE` becomes true before `timeoutMs` elapses
  (otherwise `page.waitForFunction` throws a timeout error). -/
  doneWithinTimeout : Bool
  /-- value of `window.__MERMAID_OK` read by `page.evaluate`. -/
  mermaidOk : Bool
  /-- value of `window.__MERMAID_ERROR` (if set). -/
  mermaidError : Option String
  /-- `page.pdf(...)` succeeds in writing the file. -/
  printOk : Bool
deriving DecidableEq

inductive PdfErr where
  | puppeteerMissing
  | launchFailed
  | gotoFailed
  | timeout
  | printFailed
deriving DecidableEq

instance exceptDecEq {α β : Type} [DecidableEq α] [DecidableEq β] :
    DecidableEq (Except α β) := fun x y =>
  match x, y with
  | Except.ok a, Except.ok b =>
    if h : a = b then isTrue (by rw [h])
    else isFalse (fun hc => h (by injection hc))
  | Except.error a, Except.error b =>
    if h : a = b then isTrue (by rw [h])
    else isFalse (fun hc => h (by injection hc))
  | Except.ok _, Except.error _ => isFalse (fun hc => Except.noConfusion hc)
  | Except.error _, Except.ok _ => isFalse (fun hc => Except.noConfusion hc)

/-- Observable outcome of one `renderPdfFromHtmlFile` call. -/
structure PdfOutcome where
  /-- normal return or the error thrown. -/
  result : Except PdfErr Unit
  /-- a PDF file was produced at `outPdfPath`. -/
  pdfWritten : Bool
  /-- lines printed through `console.error` for the warning path. -/
  warnings : List String
  /-- `browser.close()` ran. -/
  browserClosed : Bool
deriving DecidableEq

/-- The `console.error` lines emitted when the completion signal
reports a diagram failure (`src/exporter.js` lines 204-208). -/
def mermaidWarnings (ok : Bool) (err : Option String) : List String :=
  if ok then []
  else
    ["[warn] Mermaid reported a render problem:"]
      ++ (match err with
          | some e => ["       " ++ e]
          | none => [])
      ++ ["       PDF will still be produced, but diagrams may be missing/broken."]

/-- Embeds `renderPdfFromHtmlFile`: dynamic import, launch, then a
`try` block (goto, wait for the completion flag bounded by the
timeout, read the flag, maybe warn, print) with a `finally` that
closes the browser on every path after a successful launch. -/
def renderPdfFromHtmlFile (d : PdfDeps) : PdfOutcome :=
  if !d.puppeteerOk then
    ⟨Except.error PdfErr.puppeteerMissing, false, [], false⟩
  else if !d.launchOk then
    ⟨Except.error PdfErr.launchFailed, false, [], false⟩
  else if !d.gotoOk then
    ⟨Except.error PdfErr.gotoFailed, false, [], true⟩
  else if !d.doneWithinTimeout then
    ⟨Except.error PdfErr.timeout, false, [], true⟩
  else
    let warns := mermaidWarnings d.mermaidOk d.mermaidError
    if !d.printOk then
      ⟨Except.error PdfErr.printFailed, false, warns, true⟩
    else
      ⟨Except.ok (), true, warns, true⟩

/-! ### Intermediate-HTML handling of the PDF path

Both the CLI `main` (`src/unnamed` CLI entry, lines 740-761 of the
concatenated sources) and the editor-extension `exportMarkdown` derive
the intermediate HTML file the same way: when retention is requested
the path is the output PDF path with a trailing `.pdf` (matched
case-insensitively) removed and `.html` appended; otherwise a fresh
temporary name; the `finally` block unlinks it exactly when retention
is off. -/

/-- Embeds `outPath.replace(/\.pdf$/i, "")`: strip one trailing
`.pdf`, matched case-insensitively, if present. -/
def jsStripPdfExt (s : String) : String :=
  if ((s.data.reverse.take 4).reverse.map Char.toLower) = ".pdf".data then
    String.mk (s.data.take (s.data.length - 4))
  else s

/-- One PDF-producing run of the CLI / extension export, as far as the
intermediate HTML file is concerned. -/
structure PdfExportRun where
  /-- the Markdown input path (not consulted by the retention logic). -/
  inputPath : String
  /-- resolved output PDF path. -/
  outPath : String
  /-- the retention flag (`--keep-html` / `keepHtml` setting). -/
  keepHtml : Bool
  /-- whether `renderPdfFromHtmlFile` returned normally. -/
  renderOk : Bool
  /-- the random temporary name used when retention is off. -/
  tmpName : String
deriving DecidableEq

def tmpHtmlPath (r : PdfExportRun) : String :=
  if r.keepHtml then jsStripPdfExt r.outPath ++ ".html" else r.tmpName

/-- File-system trace of the PDF phase: the HTML files written and the
HTML files removed (the `finally` unlink), plus the overall outcome. -/
structure PdfExportTrace where
  htmlWritten : List String
  htmlRemoved : List String
  outcome : Except Unit Unit
deriving DecidableEq

/-- Embeds the PDF branch of `main` (and of `exportMarkdown`): write
the intermediate HTML, attempt the render, and in the `finally` block
unlink the intermediate file exactly when retention is off (unlink
errors swallowed). -/
def pdfExportPhase (r : PdfExportRun) : PdfExportTrace :=
  { htmlWritten := [tmpHtmlPath r]
    htmlRemoved := if r.keepHtml then [] else [tmpHtmlPath r]
    outcome := if r.renderOk then Except.ok () else Except.error () }

/-- The intermediate HTML files still on disk after the run. -/
def remainingHtml (r : PdfExportRun) : List String :=
  (pdfExportPhase r).htmlWritten.filter
    (fun f => !(pdfExportPhase r).htmlRemoved.contains f)

/-- Follows the spec's words for the retained-HTML location: the input
basename with its extension replaced by `.html` (POSIX basename, last
dot not at position zero starts the extension). -/
def specKeptHtmlPath (inputPath : String) : String :=
  let base := (inputPath.data.reverse.takeWhile (fun c => c ≠ '/')).reverse
  let r := base.reverse
  let pre := r.takeWhile (fun c => c ≠ '.')
  let noExt :=
    if pre.length = r.length then base
    else if pre.length + 1 = r.length then base
    else (r.drop (pre.length + 1)).reverse
  String.mk noExt ++ ".html"

/-! ### Substring utilities for inspecting the assembled document -/

/-- Number of positions where `pat` occurs in `l`. -/
def countOccs (pat : List Char) : List Char → Nat
  | [] => 0
  | c :: cs =>
    (if pat.isPrefixOf (c :: cs) then 1 else 0) + countOccs pat cs

/-- The suffix following the first occurrence of `pat`, if any. -/
def afterSub (pat : List Char) : List Char → Option (List Char)
  | [] => if pat = [] then some [] else none
  | c :: cs =>
    if pat.isPrefixOf (c :: cs) then some ((c :: cs).drop pat.length)
    else afterSub pat cs

/-- The prefix preceding the first occurrence of `pat`. -/
def upToSub (pat : List Char) : List Char → List Char
  | [] => []
  | c :: cs =>
    if pat.isPrefixOf (c :: cs) then [] else c :: upToSub pat cs

/-- The diagram container marker emitted by the fence override. -/
def mermaidMarker : List Char := "<pre class=\"mermaid\">".data

/-- Raw (entity-decoded) text of the first diagram container of an
assembled document, if one exists. -/
def containerRaw (html : String) : Option String :=
  (afterSub mermaidMarker html.data).map
    (fun rest => String.mk (unescapeL (upToSub "</pre>".data rest)))

/-- Concatenation of a list of parts. -/
def chainParts : List (List Char) → List Char
  | [] => []
  | p :: ps => p ++ chainParts ps

/-- Occurrence count contributed by each part (occurrences starting in
that part, counted in a window extended by `pat.length - 1`). -/
def partCounts (pat : List Char) : List (List Char) → List Nat
  | [] => []
  | p :: ps =>
    countOccs pat (p ++ (chainParts ps).take (pat.length - 1)) :: partCounts pat ps


/-! ### Round-trip lemmas for the escaping layer -/

/-! ### The concrete document of spec section 8's worked example -/

def c7Input : String := "# T\n```mermaid\nflowchart LR\nA-->B\n```\n"

def c7Assets : Assets := ⟨some "CSS", Except.ok "MERMAIDJS"⟩

/-- The document built for the worked example (concrete assets and
base href; the claim inspected is independent of their values). -/
def c7Doc : Except String String :=
  buildHtml c7Assets "file:///doc/" c7Input "test.md" "default" "strict"

def c7Page : String :=
  assembleHtml "file:///doc/" "test.md" "CSS" (mdRender c7Input) "MERMAIDJS"
    (mermaidBootstrap "strict" "default")

/-- The parts of `c7Page` up to and including the rendered body, in
order (the template pieces of `assembleHtml`). -/
def c7PartsA : List (List Char) :=
  ["<!doctype html>\n<html>\n<head>\n  <meta charset=\"utf-8\" />\n  <meta name=\"viewport\" content=\"width=device-width,initial-scale=1\" />\n  <base href=\"".data,
   (escapeHtml "file:///doc/").data,
   "\" />\n  <title>".data,
   (escapeHtml "test.md").data,
   "</title>\n  <style>".data,
   "CSS".data,
   "\n".data,
   extraCss.data,
   "</style>\n</head>\n<body>\n  <article class=\"markdown-body\">\n".data,
   (mdRender c7Input).data]

/-- The parts of `c7Page` after the rendered body, in order. -/
def c7PartsB : List (List Char) :=
  ["\n  </article>\n\n  <script>".data,
   "MERMAIDJS".data,
   "</script>\n  <script>".data,
   "\n    (function () \x7b\n      function markDone(ok, err) \x7b\n        window.__MERMAID_DONE = true;\n        window.__MERMAID_OK = ok;\n        if (err) window.__MERMAID_ERROR = String(err);\n      \x7d\n\n      try \x7b\n        if (typeof mermaid === \"undefined\") \x7b\n          markDone(false, \"Mermaid failed to load\");\n          return;\n        \x7d\n\n        var init = \x7b\n          startOnLoad: false,\n          securityLevel: ".data,
   (jsonStringify "strict").data,
   ",\n          theme: ".data,
   (jsonStringify "default").data,
   "\n        \x7d;\n\n        if (typeof mermaid.initialize === \"function\") \x7b\n          mermaid.initialize(init);\n        \x7d else if (mermaid.mermaidAPI && typeof mermaid.mermaidAPI.initialize === \"function\") \x7b\n          mermaid.mermaidAPI.initialize(init);\n        \x7d\n\n        var p;\n        if (typeof mermaid.run === \"function\") \x7b\n          p = mermaid.run(\x7b querySelector: \".mermaid\" \x7d);\n        \x7d else if (typeof mermaid.init === \"function\") \x7b\n          mermaid.init(undefined, document.querySelectorAll(\".mermaid\"));\n          p = Promise.resolve();\n        \x7d else \x7b\n          p = Promise.reject(new Error(\"Unknown Mermaid API (no run/init found)\"));\n        \x7d\n\n        Promise.resolve(p)\n          .then(function () \x7b markDone(true); \x7d)\n          .catch(function (e) \x7b console.error(e); markDone(false, e); \x7d);\n\n      \x7d catch (e) \x7b\n        console.error(e);\n        markDone(false, e);\n      \x7d\n    \x7d)();\n  ".data,
   "</script>\n</body>\n</html>".data]

theorem replaceChar_eq_flatMap (p : Char) (r : List Char) (l : List Char) :
    replaceChar p r l = l.flatMap (fun c => if c = p then r else [c]) := by
  induction l with
  | nil => rfl
  | cons c cs ih =>
    by_cases h : c = p <;> simp [replaceChar, h, ih, List.flatMap]

theorem escapeHtml_data_eq_flatMap (s : String) :
    (escapeHtml s).data = s.data.flatMap escChar := by
  show (String.mk _).data = _
  simp only [replaceChar_eq_flatMap, List.flatMap_assoc]
  apply List.flatMap_congr
  intro c _
  by_cases h1 : c = '&'
  · subst h1; rfl
  · by_cases h2 : c = '<'
    · subst h2; rfl
    · by_cases h3 : c = '>'
      · subst h3; rfl
      · by_cases h4 : c = '"'
        · subst h4; rfl
        · by_cases h5 : c = '\x27'
          · subst h5; rfl
          · simp [escChar, h1, h2, h3, h4, h5, List.flatMap]

set_option maxHeartbeats 2000000 in
theorem unescapeL_cons_plain (c : Char) (l : List Char) (h : c ≠ '&') :
    unescapeL (c :: l) = c :: unescapeL l := by
  rw [unescapeL.eq_def]
  split
  all_goals rename_i heq
  all_goals first
    | exact List.noConfusion heq
    | (injection heq with h1 h2; first
        | exact absurd h1 h
        | (subst h1; subst h2; rfl))

set_option maxHeartbeats 2000000 in
theorem unescapeL_escape (l : List Char) :
    unescapeL (l.flatMap escChar) = l := by
  induction l with
  | nil => rfl
  | cons c cs ih =>
    rw [List.flatMap_cons]
    by_cases h1 : c = '&'
    · subst h1
      show unescapeL ('&' :: 'a' :: 'm' :: 'p' :: ';' :: cs.flatMap escChar) = _
      simp [unescapeL, ih]
    · by_cases h2 : c = '<'
      · subst h2
        show unescapeL ('&' :: 'l' :: 't' :: ';' :: cs.flatMap escChar) = _
        simp [unescapeL, ih]
      · by_cases h3 : c = '>'
        · subst h3
          show unescapeL ('&' :: 'g' :: 't' :: ';' :: cs.flatMap escChar) = _
          simp [unescapeL, ih]
        · by_cases h4 : c = '"'
          · subst h4
            show unescapeL ('&' :: 'q' :: 'u' :: 'o' :: 't' :: ';' :: cs.flatMap escChar) = _
            simp [unescapeL, ih]
          · by_cases h5 : c = '\x27'
            · subst h5
              show unescapeL ('&' :: '#' :: '3' :: '9' :: ';' :: cs.flatMap escChar) = _
              simp [unescapeL, ih]
            · have he : escChar c = [c] := by simp [escChar, h1, h2, h3, h4, h5]
              rw [he]
              show unescapeL (c :: cs.flatMap escChar) = _
              rw [unescapeL_cons_plain c _ h1, ih]

theorem unescape_escape (s : String) :
    unescapeHtml (escapeHtml s) = s := by
  show String.mk (unescapeL (escapeHtml s).data) = s
  rw [escapeHtml_data_eq_flatMap, unescapeL_escape]

/-! ### Decomposition lemmas for the substring scanners

These let occurrence counts and scans over a long concatenation be
computed piecewise: an occurrence beginning inside one part lies
entirely within that part extended by the next `pat.length - 1`
characters. -/

theorem isPrefixOf_length_le {pat l : List Char} (h : pat.isPrefixOf l = true) :
    pat.length ≤ l.length :=
  (List.isPrefixOf_iff_prefix.mp h).length_le

theorem countOccs_eq_zero_of_short (pat l : List Char) (h : l.length < pat.length) :
    countOccs pat l = 0 := by
  induction l with
  | nil => rfl
  | cons c cs ih =>
    have hcs : cs.length < pat.length := by
      simp only [List.length_cons] at h; omega
    have hp : pat.isPrefixOf (c :: cs) = false := by
      cases hb : pat.isPrefixOf (c :: cs)
      · rfl
      · have := isPrefixOf_length_le hb
        omega
    simp [countOccs, hp, ih hcs]

theorem isPrefixOf_congr_take {pat x y : List Char}
    (h : x.take pat.length = y.take pat.length) :
    pat.isPrefixOf x = pat.isPrefixOf y := by
  cases hx : pat.isPrefixOf x <;> cases hy : pat.isPrefixOf y <;> try rfl
  · have h2 := List.prefix_iff_eq_take.mp (List.isPrefixOf_iff_prefix.mp hy)
    have hx2 : pat.isPrefixOf x = true :=
      List.isPrefixOf_iff_prefix.mpr (List.prefix_iff_eq_take.mpr (by rw [h]; exact h2))
    rw [hx] at hx2
    exact hx2
  · have h2 := List.prefix_iff_eq_take.mp (List.isPrefixOf_iff_prefix.mp hx)
    have hy2 : pat.isPrefixOf y = true :=
      List.isPrefixOf_iff_prefix.mpr (List.prefix_iff_eq_take.mpr (by rw [← h]; exact h2))
    rw [hy] at hy2
    exact hy2.symm

theorem take_append_take (a b : List Char) (k : Nat) :
    (a ++ b.take k).take k = (a ++ b).take k := by
  rw [List.take_append_eq_append_take, List.take_append_eq_append_take, List.take_take]
  rw [Nat.min_eq_left (Nat.sub_le _ _)]

theorem countOccs_append (pat : List Char) (hp : 0 < pat.length) (a b : List Char) :
    countOccs pat (a ++ b) =
      countOccs pat (a ++ b.take (pat.length - 1)) + countOccs pat b := by
  induction a with
  | nil =>
    simp only [List.nil_append]
    have h0 : countOccs pat (b.take (pat.length - 1)) = 0 := by
      apply countOccs_eq_zero_of_short
      have := List.length_take (pat.length - 1) b
      omega
    rw [h0]
    omega
  | cons c a ih =>
    obtain ⟨k, hk⟩ : ∃ k, pat.length = k + 1 := ⟨pat.length - 1, by omega⟩
    have hpre : pat.isPrefixOf (c :: (a ++ b.take (pat.length - 1)))
        = pat.isPrefixOf (c :: (a ++ b)) := by
      apply isPrefixOf_congr_take
      rw [hk, List.take_succ_cons, List.take_succ_cons]
      simp only [Nat.add_sub_cancel]
      rw [take_append_take]
    rw [List.cons_append, List.cons_append]
    show (if pat.isPrefixOf (c :: (a ++ b)) then 1 else 0) + countOccs pat (a ++ b)
        = ((if pat.isPrefixOf (c :: (a ++ b.take (pat.length - 1))) then 1 else 0)
            + countOccs pat (a ++ b.take (pat.length - 1))) + countOccs pat b
    rw [hpre, ih]
    omega

theorem afterSub_some_length {pat l t : List Char} (h : afterSub pat l = some t) :
    pat.length + t.length ≤ l.length := by
  induction l with
  | nil =>
    simp only [afterSub] at h
    split at h
    · rename_i hp
      injection h with h1
      subst h1
      simp [hp]
    · exact absurd h (by simp)
  | cons c cs ih =>
    simp only [afterSub] at h
    split at h
    · rename_i hb
      injection h with h1
      subst h1
      have hm := isPrefixOf_length_le hb
      simp only [List.length_drop, List.length_cons] at *
      omega
    · have := ih h
      simp only [List.length_cons]
      omega

theorem isPrefixOf_append_right {pat x : List Char} (b : List Char)
    (h : pat.isPrefixOf x = true) : pat.isPrefixOf (x ++ b) = true :=
  List.isPrefixOf_iff_prefix.mpr
    ((List.isPrefixOf_iff_prefix.mp h).trans (List.prefix_append x b))

theorem isPrefixOf_cons_append_false {pat : List Char} (c : Char) {a : List Char}
    (b : List Char) (hlen : pat.length ≤ a.length)
    (h : pat.isPrefixOf (c :: a) = false) :
    pat.isPrefixOf (c :: (a ++ b)) = false := by
  have h2 : (c :: (a ++ b)).take pat.length = (c :: a).take pat.length := by
    cases hm : pat.length with
    | zero => simp
    | succ k =>
      rw [List.take_succ_cons, List.take_succ_cons, List.take_append_eq_append_take]
      have hk : k - a.length = 0 := by omega
      rw [hk]
      simp
  rw [isPrefixOf_congr_take h2]
  exact h

theorem afterSub_append {pat : List Char} (hp : 0 < pat.length) {a t : List Char}
    (b : List Char) (h : afterSub pat a = some t) :
    afterSub pat (a ++ b) = some (t ++ b) := by
  induction a with
  | nil =>
    simp only [afterSub] at h
    split at h
    · rename_i hpe
      rw [hpe] at hp
      simp at hp
    · exact absurd h (by simp)
  | cons c cs ih =>
    simp only [afterSub] at h
    split at h
    · rename_i hb
      injection h with h1
      subst h1
      have hm := isPrefixOf_length_le hb
      rw [List.cons_append]
      have hb2 : pat.isPrefixOf ((c :: cs) ++ b) = true := isPrefixOf_append_right b hb
      rw [List.cons_append] at hb2
      simp only [afterSub, hb2, if_pos]
      rw [← List.cons_append, List.drop_append_eq_append_drop]
      have hz : pat.length - (c :: cs).length = 0 := by
        simp only [List.length_cons] at *
        omega
      rw [hz, List.drop_zero]
    · rename_i hb
      have hbf : pat.isPrefixOf (c :: cs) = false := by
        cases hx : pat.isPrefixOf (c :: cs)
        · rfl
        · exact absurd hx hb
      have hlen : pat.length ≤ cs.length := by
        have := afterSub_some_length h
        omega
      rw [List.cons_append]
      have hbf2 := isPrefixOf_cons_append_false c b hlen hbf
      simp only [afterSub, hbf2, Bool.false_eq_true, if_false]
      exact ih h

theorem upToSub_append {pat : List Char} (hp : 0 < pat.length) {a t : List Char}
    (b : List Char) (h : afterSub pat a = some t) :
    upToSub pat (a ++ b) = upToSub pat a := by
  induction a with
  | nil =>
    simp only [afterSub] at h
    split at h
    · rename_i hpe
      rw [hpe] at hp
      simp at hp
    · exact absurd h (by simp)
  | cons c cs ih =>
    simp only [afterSub] at h
    split at h
    · rename_i hb
      rw [List.cons_append]
      have hb2 : pat.isPrefixOf ((c :: cs) ++ b) = true := isPrefixOf_append_right b hb
      rw [List.cons_append] at hb2
      simp [upToSub, hb2, hb]
    · rename_i hb
      have hbf : pat.isPrefixOf (c :: cs) = false := by
        cases hx : pat.isPrefixOf (c :: cs)
        · rfl
        · exact absurd hx hb
      have hlen : pat.length ≤ cs.length := by
        have := afterSub_some_length h
        omega
      rw [List.cons_append]
      have hbf2 := isPrefixOf_cons_append_false c b hlen hbf
      simp only [upToSub, hbf2, hbf, Bool.false_eq_true, if_false]
      rw [ih h]

theorem chainParts_append (xs ys : List (List Char)) :
    chainParts (xs ++ ys) = chainParts xs ++ chainParts ys := by
  induction xs with
  | nil => rfl
  | cons p ps ih => simp [chainParts, ih]

theorem countOccs_chainParts (pat : List Char) (hp : 0 < pat.length)
    (ps : List (List Char)) :
    countOccs pat (chainParts ps) = (partCounts pat ps).sum := by
  induction ps with
  | nil => rfl
  | cons p ps ih =>
    simp only [chainParts, partCounts, List.sum_cons]
    rw [countOccs_append pat hp p (chainParts ps), ih]

/-! ### Claim theorems -/

/-- C6: HTML escaping of a block's source text is invertible and
injective: decoding the five emitted entities back to their characters
recovers every string exactly. -/
theorem escapeHtml_round_trip (s t : String) :
    unescapeHtml (escapeHtml s) = s ∧ (escapeHtml s = escapeHtml t → s = t) := by
  refine ⟨unescape_escape s, fun h => ?_⟩
  have h2 := congrArg unescapeHtml h
  rwa [unescape_escape, unescape_escape] at h2

theorem escapeHtml_round_trip_witness :
    unescapeHtml (escapeHtml "<a&b>\x27\"") = "<a&b>\x27\"" ∧ ("ab" : String) = "ab" :=
  ⟨(escapeHtml_round_trip "<a&b>\x27\"" "x").1, (escapeHtml_round_trip "ab" "ab").2 rfl⟩

/-- C1: the fence rule installed by `buildHtml` renders a fenced block
whose info-string language tag is `mermaid` as the
`<pre class="mermaid">` container holding the block's literal text
HTML-escaped, instead of the default code rendering; every other
fenced block goes to the default fence rule. -/
theorem fence_rule_override (info content : String) :
    (fenceLang info = "mermaid" →
      renderBlock (Block.fence info content)
        = "<pre class=\"mermaid\">" ++ mdEscapeHtml content ++ "</pre>\n")
  ∧ (fenceLang info ≠ "mermaid" →
      renderBlock (Block.fence info content) = defaultFence info content) := by
  constructor
  · intro h
    simp [renderBlock, h, mermaidPre]
  · intro h
    simp [renderBlock, h]

theorem fence_rule_override_witness :
    renderBlock (Block.fence "mermaid" "a<b")
        = "<pre class=\"mermaid\">" ++ mdEscapeHtml "a<b" ++ "</pre>\n"
  ∧ renderBlock (Block.fence "js" "x") = defaultFence "js" "x" :=
  ⟨(fence_rule_override "mermaid" "a<b").1 (by decide),
   (fence_rule_override "js" "x").2 (by decide)⟩

theorem mermaidPre_ne_defaultFence (info content : String) :
    mermaidPre content ≠ defaultFence info content := by
  intro h
  have p1 : "<pre ".data <+: (mermaidPre content).data := by
    refine List.IsPrefix.trans (show "<pre ".data <+: "<pre class=\"mermaid\">".data by decide) ?_
    simp only [mermaidPre, String.data_append, List.append_assoc]
    exact List.prefix_append _ _
  have p2 : "<pre>".data <+: (defaultFence info content).data := by
    by_cases hi : jsTrim info = ""
    · refine List.IsPrefix.trans (show "<pre>".data <+: "<pre><code>".data by decide) ?_
      simp only [defaultFence, hi, if_pos, String.data_append, List.append_assoc]
      exact List.prefix_append _ _
    · refine List.IsPrefix.trans
        (show "<pre>".data <+: "<pre><code class=\"language-".data by decide) ?_
      simp only [defaultFence, hi, if_neg, String.data_append, List.append_assoc]
      exact List.prefix_append _ _
  rw [h] at p1
  have e1 := List.prefix_iff_eq_take.mp p1
  have e2 := List.prefix_iff_eq_take.mp p2
  have l1 : ("<pre ".data : List Char).length = 5 := by decide
  have l2 : ("<pre>".data : List Char).length = 5 := by decide
  rw [l1] at e1
  rw [l2] at e2
  rw [← e2] at e1
  exact absurd e1 (by decide)

/-- C10: diagram detection matches exactly the first
whitespace-separated word of the trimmed fence info string,
case-sensitively: a fence renders as the diagram container precisely
when that word is `mermaid`; in particular `mermaid foo=bar` is
detected while `Mermaid` and `mermaid-js` are not. -/
theorem fence_detection_first_word (info content : String) :
    (renderBlock (Block.fence info content) = mermaidPre content
        ↔ fenceLang info = "mermaid")
  ∧ fenceLang "mermaid foo=bar" = "mermaid"
  ∧ fenceLang "Mermaid" ≠ "mermaid"
  ∧ fenceLang "mermaid-js" ≠ "mermaid" := by
  refine ⟨⟨fun h => ?_, fun h => by simp [renderBlock, h]⟩, by decide, by decide, by decide⟩
  by_cases hl : fenceLang info = "mermaid"
  · exact hl
  · have h2 : defaultFence info content = mermaidPre content := by
      simpa [renderBlock, hl] using h
    exact absurd h2.symm (mermaidPre_ne_defaultFence info content)

theorem fence_detection_first_word_witness :
    renderBlock (Block.fence "mermaid foo=bar" "x") = mermaidPre "x" :=
  (fence_detection_first_word "mermaid foo=bar" "x").1.mpr (by decide)

/-- C4: if the diagram-runtime script asset cannot be located or read,
`buildHtml` throws an error with a descriptive message and returns no
HTML document string. -/
theorem buildHtml_mermaid_asset_missing (css : Option String)
    (e baseHref markdown title theme level : String) :
    buildHtml ⟨css, Except.error e⟩ baseHref markdown title theme level
      = Except.error
          ("Could not find Mermaid runtime JS. Is \x27mermaid\x27 installed? Original error: "
            ++ e)
  ∧ ∀ html : String,
      buildHtml ⟨css, Except.error e⟩ baseHref markdown title theme level
        ≠ Except.ok html := by
  refine ⟨rfl, fun html hc => ?_⟩
  rw [show buildHtml ⟨css, Except.error e⟩ baseHref markdown title theme level
      = Except.error
          ("Could not find Mermaid runtime JS. Is \x27mermaid\x27 installed? Original error: "
            ++ e) from rfl] at hc
  exact Except.noConfusion hc

/-- C5: a missing optional stylesheet asset degrades silently:
`buildHtml` still succeeds and returns the complete document with the
stylesheet text replaced by the empty string — the same document as
with an empty stylesheet, and no error is raised. -/
theorem buildHtml_css_missing (mjs baseHref markdown title theme level : String) :
    buildHtml ⟨none, Except.ok mjs⟩ baseHref markdown title theme level
      = Except.ok
          (assembleHtml baseHref title "" (mdRender markdown) mjs
            (mermaidBootstrap level theme))
  ∧ buildHtml ⟨none, Except.ok mjs⟩ baseHref markdown title theme level
      = buildHtml ⟨some "", Except.ok mjs⟩ baseHref markdown title theme level :=
  ⟨rfl, rfl⟩

/-- C2: if the completion flag is never set within the configured
timeout, the printer raises a timeout error and does not produce any
PDF at the destination path — the print step is never reached. -/
theorem renderPdf_timeout (d : PdfDeps) (hp : d.puppeteerOk = true)
    (hl : d.launchOk = true) (hg : d.gotoOk = true)
    (ht : d.doneWithinTimeout = false) :
    (renderPdfFromHtmlFile d).result = Except.error PdfErr.timeout
  ∧ (renderPdfFromHtmlFile d).pdfWritten = false := by
  simp [renderPdfFromHtmlFile, hp, hl, hg, ht]

theorem renderPdf_timeout_witness :
    (renderPdfFromHtmlFile ⟨true, true, true, false, true, none, true⟩).result
        = Except.error PdfErr.timeout
  ∧ (renderPdfFromHtmlFile ⟨true, true, true, false, true, none, true⟩).pdfWritten
        = false :=
  renderPdf_timeout ⟨true, true, true, false, true, none, true⟩ rfl rfl rfl rfl

/-- C3: if the completion flag is set before the timeout but reports
that the diagram runtime failed, the printer still produces a PDF at
the destination, returns normally (no exception), and emits the
non-fatal warning lines. -/
theorem renderPdf_diagram_failure_warns (d : PdfDeps) (hp : d.puppeteerOk = true)
    (hl : d.launchOk = true) (hg : d.gotoOk = true)
    (ht : d.doneWithinTimeout = true) (hm : d.mermaidOk = false)
    (hpr : d.printOk = true) :
    (renderPdfFromHtmlFile d).result = Except.ok ()
  ∧ (renderPdfFromHtmlFile d).pdfWritten = true
  ∧ "[warn] Mermaid reported a render problem:"
      ∈ (renderPdfFromHtmlFile d).warnings := by
  simp [renderPdfFromHtmlFile, mermaidWarnings, hp, hl, hg, ht, hm, hpr]

theorem renderPdf_diagram_failure_warns_witness :
    (renderPdfFromHtmlFile ⟨true, true, true, true, false, some "boom", true⟩).result
        = Except.ok ()
  ∧ (renderPdfFromHtmlFile ⟨true, true, true, true, false, some "boom", true⟩).pdfWritten
        = true
  ∧ "[warn] Mermaid reported a render problem:"
      ∈ (renderPdfFromHtmlFile ⟨true, true, true, true, false, some "boom", true⟩).warnings :=
  renderPdf_diagram_failure_warns ⟨true, true, true, true, false, some "boom", true⟩
    rfl rfl rfl rfl rfl rfl

/-- C8: after a successful dynamic import and launch, the browser is
closed on every exit path — success, diagram-failure warning, timeout
error, navigation error, and print error. -/
theorem renderPdf_browser_closed (d : PdfDeps) (hp : d.puppeteerOk = true)
    (hl : d.launchOk = true) :
    (renderPdfFromHtmlFile d).browserClosed = true := by
  cases hg : d.gotoOk <;> cases ht : d.doneWithinTimeout <;> cases hpr : d.printOk <;>
    simp [renderPdfFromHtmlFile, hp, hl, hg, ht, hpr]

theorem renderPdf_browser_closed_witness :
    (renderPdfFromHtmlFile ⟨true, true, true, false, false, none, false⟩).browserClosed
      = true :=
  renderPdf_browser_closed ⟨true, true, true, false, false, none, false⟩ rfl rfl

/-- C9 (amended): after any PDF-producing run with retention disabled,
the intermediate HTML file is removed whether printing succeeded or
failed; with retention enabled, exactly one intermediate HTML file
remains — at the output PDF path with its trailing `.pdf`
(case-insensitive) removed and `.html` appended, which coincides with
the input basename with its extension replaced only when the output
path is the default one. -/
theorem tmp_html_retention (r : PdfExportRun) :
    (r.keepHtml = false → remainingHtml r = [])
  ∧ (r.keepHtml = true →
      remainingHtml r = [jsStripPdfExt r.outPath ++ ".html"]) := by
  constructor
  · intro h
    simp [remainingHtml, pdfExportPhase, tmpHtmlPath, h]
  · intro h
    simp [remainingHtml, pdfExportPhase, tmpHtmlPath, h]

/-- C9 counterexample: a run on input `doc.md` with output path
`other.pdf` and retention enabled leaves the HTML at `other.html`,
which is not the input basename with the extension replaced
(`doc.html`) that the claim states. -/
theorem tmp_html_retention_cex :
    remainingHtml ⟨"doc.md", "other.pdf", true, true, "tmp-1.html"⟩ = ["other.html"]
  ∧ specKeptHtmlPath "doc.md" = "doc.html"
  ∧ ("other.html" : String) ≠ "doc.html" :=
  ⟨by decide, by decide, by decide⟩

theorem tmp_html_retention_witness :
    remainingHtml ⟨"doc.md", "doc.pdf", false, true, "tmp-2.html"⟩ = []
  ∧ remainingHtml ⟨"doc.md", "doc.pdf", true, false, "tmp-3.html"⟩ = ["doc.html"] := by
  constructor
  · exact (tmp_html_retention ⟨"doc.md", "doc.pdf", false, true, "tmp-2.html"⟩).1 rfl
  · have h := (tmp_html_retention ⟨"doc.md", "doc.pdf", true, false, "tmp-3.html"⟩).2 rfl
    rw [h]
    decide

/-! ### The worked example (C7): the count and content of the diagram
container are computed piecewise over the assembled document. -/

theorem c7Doc_ok : c7Doc = Except.ok c7Page := rfl

set_option maxRecDepth 8000 in
theorem c7Page_data : c7Page.data = chainParts (c7PartsA ++ c7PartsB) := by
  simp [c7Page, assembleHtml, mermaidBootstrap, c7PartsA, c7PartsB, chainParts,
    String.data_append, List.append_assoc]

set_option maxRecDepth 8000 in
theorem c7_container_count : countOccs mermaidMarker c7Page.data = 1 := by
  rw [c7Page_data, countOccs_chainParts mermaidMarker (by decide)]
  decide

set_option maxRecDepth 8000 in
theorem c7_afterA :
    afterSub mermaidMarker (chainParts c7PartsA)
      = some "flowchart LR\nA--&gt;B\n</pre>\n".data := by decide

set_option maxRecDepth 8000 in
theorem c7_container_raw : containerRaw c7Page = some "flowchart LR\nA-->B\n" := by
  simp only [containerRaw, c7Page_data, chainParts_append]
  rw [afterSub_append (by decide) (chainParts c7PartsB) c7_afterA]
  show some (String.mk (unescapeL (upToSub "</pre>".data
      ("flowchart LR\nA--&gt;B\n</pre>\n".data ++ chainParts c7PartsB)))) = _
  rw [upToSub_append (by decide) (chainParts c7PartsB)
      (show afterSub "</pre>".data "flowchart LR\nA--&gt;B\n</pre>\n".data
          = some "\n".data from by decide)]
  decide

/-- C7 (amended): for the input `# T\n`[fence]`mermaid\nflowchart
LR\nA-->B\n`[fence]`\n`, the document returned by `buildHtml` contains
exactly one diagram container, and that container's raw (unescaped)
content is `flowchart LR\nA-->B\n` — the fenced block's content
including its trailing newline. -/
theorem c7_single_container :
    c7Doc.map (fun h => (countOccs mermaidMarker h.data, containerRaw h))
      = Except.ok (1, some "flowchart LR\nA-->B\n") := by
  rw [c7Doc_ok]
  show Except.ok (countOccs mermaidMarker c7Page.data, containerRaw c7Page) = _
  rw [c7_container_count, c7_container_raw]

/-- C7 counterexample: the container's raw content carries the fence
content's trailing newline, so it is not exactly `flowchart LR\nA-->B`
as the claim states. -/
theorem c7_trailing_newline_cex :
    c7Doc.map containerRaw = Except.ok (some "flowchart LR\nA-->B\n")
  ∧ ("flowchart LR\nA-->B\n" : String) ≠ "flowchart LR\nA-->B" := by
  constructor
  · rw [c7Doc_ok]
    show Except.ok (containerRaw c7Page) = _
    rw [c7_container_raw]
  · decide

end MdMermaid
